import Mathlib

/-!
Shallow embedding of `comfyui-manager-keepalive/js/keepalive.js` (the variant
with the recovery poller): a browser keepalive client that pings a manager
endpoint every 60 seconds while the tab is visible, shows a transient overlay
notification while the backend is starting, and runs a faster 2-second
recovery-poll loop until the backend reports `running`.

The single-threaded JS event loop is modelled as a state machine with an
explicit queue of timed tasks (setTimeout / setInterval callbacks); network
responses are supplied by an oracle list consumed one response per request.
-/

namespace Keepalive

/-- Visual style of a notification, from `showNotification(message, type)`:
`type === 'info'` picks the blue style, anything else the green success style. -/
inductive Style
  | info
  | success
deriving DecidableEq, Repr

/-- A rendered notification DOM element. `opacityZero` records
`notificationEl.style.opacity = '0'` (the fade-out started). `id` is the
element's identity, used for DOM membership. -/
structure Elem where
  id : Nat
  message : String
  type : Style
  opacityZero : Bool
deriving DecidableEq, Repr

/-- Outcome of one `fetch` to the manager ping endpoint: `ok state` is a
successful round trip whose decoded JSON carried the given `state` string;
`fail` is a transport error, a 5-second timeout, or malformed JSON (anything
that makes the `try` block throw). -/
inductive Response
  | ok (state : String)
  | fail
deriving DecidableEq, Repr

/-- The four kinds of scheduled callbacks in the script. -/
inductive Task
  | heartbeat
  | pollAttempt (sid : Nat)
  | hideRemoval
  | hideLater
deriving DecidableEq, Repr

/-- A scheduled callback: fire time, insertion sequence number (FIFO
tie-break, as in a real event loop), and the callback itself. -/
structure Timed where
  time : Nat
  seq : Nat
  task : Task
deriving DecidableEq, Repr

/-- Earlier-fires-first order on scheduled callbacks. -/
def before (a b : Timed) : Bool :=
  a.time < b.time || (a.time = b.time && a.seq < b.seq)

/-- Insert a scheduled callback keeping the queue sorted by `before`. -/
def insertT (t : Timed) : List Timed → List Timed
  | [] => [t]
  | x :: xs => if before t x then t :: x :: xs else x :: insertT t xs

/-- Derived backend state (spec data model): how a response outcome is
interpreted by the client's branching — a transport failure and any
unrecognized `state` value are treated as `unknown`. -/
inductive BackendState
  | stopped
  | starting
  | running
  | unknown
deriving DecidableEq, Repr

/-- Pure interpretation of one response outcome into a `BackendState`. -/
def interpret : Response → BackendState
  | Response.fail => BackendState.unknown
  | Response.ok st =>
      if st = "starting" then BackendState.starting
      else if st = "running" then BackendState.running
      else if st = "stopped" then BackendState.stopped
      else BackendState.unknown

/-- Whole-client state: the module-level mutable handles of the script
(`pingInterval`, `notificationEl`), the notification elements present in the
document, the event-loop queue, the set of live poll sessions (one entry per
`pollUntilRunning()` chain that has not yet returned `done`), the response
oracle, and request counters used as observers. -/
structure St where
  now : Nat
  hidden : Bool
  pingInterval : Bool
  notificationEl : Option Elem
  dom : List Elem
  queue : List Timed
  nextSeq : Nat
  nextId : Nat
  activeSessions : List Nat
  nextSid : Nat
  responses : List Response
  pingCount : Nat
  pollCount : Nat
deriving DecidableEq, Repr

/-- Schedule a callback `k` to fire at absolute time `t` (setTimeout). -/
def schedule (s : St) (t : Nat) (k : Task) : St :=
  { s with queue := insertT ⟨t, s.nextSeq, k⟩ s.queue, nextSeq := s.nextSeq + 1 }

/-- The next response the oracle will deliver; an exhausted oracle behaves
like an unreachable backend (transport failure). -/
def nextResponse (s : St) : Response :=
  match s.responses.head? with
  | none => Response.fail
  | some r => r

/-- `showNotification(message, type)`: remove the existing notification
element if any, then create a fresh element and append it to the body. -/
def showNotification (s : St) (message : String) (type : Style) : St :=
  let s1 :=
    match s.notificationEl with
    | some el => { s with dom := s.dom.filter (fun e => decide (e.id ≠ el.id)) }
    | none => s
  let el : Elem := ⟨s1.nextId, message, type, false⟩
  { s1 with notificationEl := some el, dom := s1.dom ++ [el],
            nextId := s1.nextId + 1 }

/-- `hideNotification()`: if an element is displayed, start its fade
(opacity 0) and schedule the removal closure 300 ms later. The closure is
`Task.hideRemoval`; crucially it captures the module variable, not the
element. -/
def hideNotification (s : St) : St :=
  match s.notificationEl with
  | none => s
  | some el =>
      let el2 : Elem := { el with opacityZero := true }
      let s1 := { s with notificationEl := some el2,
                         dom := s.dom.map (fun e => if e.id = el.id then el2 else e) }
      schedule s1 (s1.now + 300) Task.hideRemoval

/-- The body of the 300 ms closure inside `hideNotification`: it re-reads the
module-level `notificationEl` at fire time and removes whatever element that
variable currently references. -/
def runHideRemoval (s : St) : St :=
  match s.notificationEl with
  | none => s
  | some el =>
      { s with dom := s.dom.filter (fun e => decide (e.id ≠ el.id)),
               notificationEl := none }

/-- Remove a finished session from the set of live poll sessions. -/
def endSession (s : St) (sid : Nat) : St :=
  { s with activeSessions := s.activeSessions.filter (fun x => decide (x ≠ sid)) }

/-- `pollUntilRunning()`: begin a new poll session — there is no guard in the
source, every call creates a fresh session — and kick off its first
`poll()` attempt (scheduled at the current instant, running once the caller's
synchronous part finishes). -/
def pollUntilRunning (s : St) : St :=
  let sid := s.nextSid
  let s1 := { s with activeSessions := s.activeSessions ++ [sid],
                     nextSid := sid + 1 }
  schedule s1 s1.now (Task.pollAttempt sid)

/-- One `poll()` attempt of session `sid`: issue the request (`checkState`),
then on `running` show the success notification, schedule `hideNotification`
2 s later and finish; on `starting` schedule the next attempt 2 s later; on
any other state hide the overlay and finish; on a thrown transport error just
finish (`return true; // Stop polling on error` — no overlay action). -/
def runPollAttempt (s : St) (sid : Nat) : St :=
  let s1 := { s with pollCount := s.pollCount + 1,
                     responses := s.responses.tail }
  match nextResponse s with
  | Response.fail => endSession s1 sid
  | Response.ok st =>
      if st = "running" then
        endSession
          (schedule (showNotification s1 "ComfyUI is ready!" Style.success)
            (s1.now + 2000) Task.hideLater) sid
      else if st = "starting" then
        schedule s1 (s1.now + 2000) (Task.pollAttempt sid)
      else
        endSession (hideNotification s1) sid

/-- `ping()`: return immediately while the tab is hidden; otherwise issue the
heartbeat request, and on `starting` show the info notification and start a
recovery poll session, on `running` hide the overlay, on anything else (other
states, missing field, transport error) do nothing visible. -/
def ping (s : St) : St :=
  if s.hidden then s
  else
    let s1 := { s with pingCount := s.pingCount + 1,
                       responses := s.responses.tail }
    match nextResponse s with
    | Response.fail => s1
    | Response.ok st =>
        if st = "starting" then
          pollUntilRunning
            (showNotification s1 "ComfyUI is starting up... Please wait." Style.info)
        else if st = "running" then
          hideNotification s1
        else s1

/-- `startPinging()`: ping immediately, then create the 60-second interval if
no interval handle is live (first tick 60 s from now). -/
def startPinging (s : St) : St :=
  let s1 := ping s
  if s1.pingInterval then s1
  else { schedule s1 (s1.now + 60000) Task.heartbeat with pingInterval := true }

/-- `stopPinging()`: clear the interval handle, which cancels its pending
ticks. -/
def stopPinging (s : St) : St :=
  if s.pingInterval then
    { s with pingInterval := false,
             queue := s.queue.filter (fun x => decide (x.task ≠ Task.heartbeat)) }
  else s

/-- The `visibilitychange` handler, fired after the environment has updated
`document.hidden`: hide stops the heartbeat, show restarts it (with an
immediate ping). -/
def visibilitychange (s : St) (hidden : Bool) : St :=
  if hidden then stopPinging { s with hidden := true }
  else startPinging { s with hidden := false }

/-- Dispatch one fired callback: an interval tick runs `ping` and, while the
interval is still live, leaves the next tick 60 s later; the other callbacks
run their closure bodies. -/
def runTask (s : St) : Task → St
  | Task.heartbeat =>
      let s1 := ping s
      if s1.pingInterval then schedule s1 (s1.now + 60000) Task.heartbeat else s1
  | Task.pollAttempt sid => runPollAttempt s sid
  | Task.hideRemoval => runHideRemoval s
  | Task.hideLater => hideNotification s

/-- One event-loop step: fire the earliest scheduled callback, if any. -/
def step (s : St) : St :=
  match s.queue with
  | [] => s
  | t :: rest => runTask { s with queue := rest, now := t.time } t.task

/-- Run `n` event-loop steps. -/
def run : Nat → St → St
  | 0, s => s
  | n + 1, s => run n (step s)

/-- Fresh client state with a given response oracle, before `setup()` runs. -/
def initSt (resps : List Response) : St :=
  { now := 0, hidden := false, pingInterval := false, notificationEl := none,
    dom := [], queue := [], nextSeq := 0, nextId := 0, activeSessions := [],
    nextSid := 0, responses := resps, pingCount := 0, pollCount := 0 }

/-- The extension's `setup()` hook: it just calls `startPinging()`. -/
def setup (s : St) : St := startPinging s

/-- Advance the wall clock to time `t` (external time passing between
event-loop activity; used to place externally triggered handler runs). -/
def atTime (s : St) (t : Nat) : St := { s with now := t }

/-- Scheduled-callback predicate: is this a heartbeat interval tick? -/
def isHb (x : Timed) : Bool := decide (x.task = Task.heartbeat)

/-- Scheduled-callback predicate: is this a poll-session attempt? -/
def isPollTask (x : Timed) : Bool :=
  match x.task with
  | Task.pollAttempt _ => true
  | _ => false

/-- The overlay representation invariant: the document contains exactly the
element the `notificationEl` handle references (nothing when it is null). -/
def domInv (s : St) : Prop := s.dom = s.notificationEl.toList

/-- States reachable by the script: the fresh state, plus closure under the
`setup()` hook, externally triggered visibility changes (at any later
instant), and event-loop steps. -/
inductive Reachable : St → Prop
  | init (resps : List Response) : Reachable (initSt resps)
  | setup {s : St} : Reachable s → Reachable (setup s)
  | vis {s : St} (t : Nat) (h : Bool) :
      Reachable s → Reachable (visibilitychange (atTime s t) h)
  | tick {s : St} : Reachable s → Reachable (step s)

/-- Oracle for the C1 scenario: the backend reports `starting` on the setup
heartbeat, on the first poll attempt, and on the reactivation heartbeat. -/
def c1resps : List Response :=
  [Response.ok "starting", Response.ok "starting", Response.ok "starting"]

/-- Oracle for the C2 scenario: `starting` on the setup heartbeat, then a
transport failure on the first poll attempt. -/
def c2resps : List Response := [Response.ok "starting", Response.fail]

/-- State for the C3 scenario: a notification "A" has been shown and
`hideNotification()` has been called, so its 300 ms removal is pending. -/
def c3state : St := hideNotification (showNotification (initSt []) "A" Style.info)

/-- Oracle for spec Scenario B: heartbeat `starting`, first poll `starting`,
second poll `running`. -/
def c4resps : List Response :=
  [Response.ok "starting", Response.ok "starting", Response.ok "running"]

/-- State for the C6 witness: one live session (id 0) whose first attempt is
due, with oracle `starting` then `running`. -/
def c6state : St :=
  { initSt [Response.ok "starting", Response.ok "running"] with
      activeSessions := [0], nextSid := 1,
      queue := [⟨0, 0, Task.pollAttempt 0⟩], nextSeq := 1 }

/-- State for the C9 witness: a visible client mid-session — the heartbeat
interval is live with its tick pending, session 0 has its next attempt
pending, oracle `starting` then `running`. -/
def c9state : St :=
  { initSt [Response.ok "starting", Response.ok "running"] with
      pingInterval := true, activeSessions := [0], nextSid := 1,
      queue := [⟨2000, 2, Task.pollAttempt 0⟩, ⟨60000, 1, Task.heartbeat⟩],
      nextSeq := 3 }

/-- A hidden, idle client (used to instantiate the hidden-side parts of the
heartbeat claims). -/
def hiddenIdle : St := { initSt [] with hidden := true }

/-- A visible client with a live interval whose tick is pending and an
unreachable backend (used to instantiate the visible-side parts of the
heartbeat claims). -/
def visibleIdle : St :=
  { initSt [Response.fail] with
      pingInterval := true,
      queue := [⟨60000, 0, Task.heartbeat⟩], nextSeq := 1 }

/- ### Helper lemmas about the individual operations -/

/-- Inserting a callback the predicate rejects does not change a filtered
view of the queue. -/
theorem filter_insertT (p : Timed → Bool) (x : Timed) (l : List Timed)
    (hx : p x = false) : (insertT x l).filter p = l.filter p := by
  induction l with
  | nil => simp [insertT, hx]
  | cons y ys ih =>
      cases h : before x y with
      | true => simp [insertT, h, hx]
      | false => simp [insertT, h, hx, List.filter_cons, ih]

/-- Inserting a callback the predicate accepts into a queue with no accepted
callback leaves exactly that callback in the filtered view. -/
theorem filter_insertT_pos (p : Timed → Bool) (x : Timed) (l : List Timed)
    (hx : p x = true) (hl : l.filter p = []) : (insertT x l).filter p = [x] := by
  induction l with
  | nil => simp [insertT, hx]
  | cons y ys ih =>
      rw [List.filter_cons] at hl
      by_cases hy : p y
      · simp [hy] at hl
      · simp only [hy, Bool.false_eq_true, if_false] at hl
        cases h : before x y with
        | true => simp [insertT, h, hx, hy, List.filter_cons, hl]
        | false =>
            simp [insertT, h, hx, hy, List.filter_cons, ih hl]

/-- Show preserves the queue. -/
@[simp] theorem showNot_queue (s : St) (m : String) (ty : Style) :
    (showNotification s m ty).queue = s.queue := by
  cases h : s.notificationEl <;> simp [showNotification, h]

/-- Show preserves the live-session list. -/
@[simp] theorem showNot_activeSessions (s : St) (m : String) (ty : Style) :
    (showNotification s m ty).activeSessions = s.activeSessions := by
  cases h : s.notificationEl <;> simp [showNotification, h]

/-- Show preserves the session-id counter. -/
@[simp] theorem showNot_nextSid (s : St) (m : String) (ty : Style) :
    (showNotification s m ty).nextSid = s.nextSid := by
  cases h : s.notificationEl <;> simp [showNotification, h]

/-- Show preserves the heartbeat request counter. -/
@[simp] theorem showNot_pingCount (s : St) (m : String) (ty : Style) :
    (showNotification s m ty).pingCount = s.pingCount := by
  cases h : s.notificationEl <;> simp [showNotification, h]

/-- Show preserves the poll request counter. -/
@[simp] theorem showNot_pollCount (s : St) (m : String) (ty : Style) :
    (showNotification s m ty).pollCount = s.pollCount := by
  cases h : s.notificationEl <;> simp [showNotification, h]

/-- Show preserves the interval handle. -/
@[simp] theorem showNot_pingInterval (s : St) (m : String) (ty : Style) :
    (showNotification s m ty).pingInterval = s.pingInterval := by
  cases h : s.notificationEl <;> simp [showNotification, h]

/-- Show preserves the visibility flag. -/
@[simp] theorem showNot_hidden (s : St) (m : String) (ty : Style) :
    (showNotification s m ty).hidden = s.hidden := by
  cases h : s.notificationEl <;> simp [showNotification, h]

/-- Show preserves the response oracle. -/
@[simp] theorem showNot_responses (s : St) (m : String) (ty : Style) :
    (showNotification s m ty).responses = s.responses := by
  cases h : s.notificationEl <;> simp [showNotification, h]

/-- Show preserves the clock. -/
@[simp] theorem showNot_now (s : St) (m : String) (ty : Style) :
    (showNotification s m ty).now = s.now := by
  cases h : s.notificationEl <;> simp [showNotification, h]

/-- Show preserves the scheduling sequence counter. -/
@[simp] theorem showNot_nextSeq (s : St) (m : String) (ty : Style) :
    (showNotification s m ty).nextSeq = s.nextSeq := by
  cases h : s.notificationEl <;> simp [showNotification, h]

/-- Hide preserves the live-session list. -/
@[simp] theorem hideNot_activeSessions (s : St) :
    (hideNotification s).activeSessions = s.activeSessions := by
  cases h : s.notificationEl <;> simp [hideNotification, h, schedule]

/-- Hide preserves the session-id counter. -/
@[simp] theorem hideNot_nextSid (s : St) :
    (hideNotification s).nextSid = s.nextSid := by
  cases h : s.notificationEl <;> simp [hideNotification, h, schedule]

/-- Hide preserves the heartbeat request counter. -/
@[simp] theorem hideNot_pingCount (s : St) :
    (hideNotification s).pingCount = s.pingCount := by
  cases h : s.notificationEl <;> simp [hideNotification, h, schedule]

/-- Hide preserves the poll request counter. -/
@[simp] theorem hideNot_pollCount (s : St) :
    (hideNotification s).pollCount = s.pollCount := by
  cases h : s.notificationEl <;> simp [hideNotification, h, schedule]

/-- Hide preserves the interval handle. -/
@[simp] theorem hideNot_pingInterval (s : St) :
    (hideNotification s).pingInterval = s.pingInterval := by
  cases h : s.notificationEl <;> simp [hideNotification, h, schedule]

/-- Hide preserves the visibility flag. -/
@[simp] theorem hideNot_hidden (s : St) :
    (hideNotification s).hidden = s.hidden := by
  cases h : s.notificationEl <;> simp [hideNotification, h, schedule]

/-- Hide preserves the response oracle. -/
@[simp] theorem hideNot_responses (s : St) :
    (hideNotification s).responses = s.responses := by
  cases h : s.notificationEl <;> simp [hideNotification, h, schedule]

/-- Hide preserves the clock. -/
@[simp] theorem hideNot_now (s : St) :
    (hideNotification s).now = s.now := by
  cases h : s.notificationEl <;> simp [hideNotification, h, schedule]

/-- Hide only ever schedules its removal closure, so any filtered view of
the queue that rejects removal callbacks is preserved. -/
theorem hideNot_queue_filter (s : St) (p : Timed → Bool)
    (hp : ∀ t q, p ⟨t, q, Task.hideRemoval⟩ = false) :
    (hideNotification s).queue.filter p = s.queue.filter p := by
  cases h : s.notificationEl with
  | none => simp [hideNotification, h]
  | some el => simp [hideNotification, h, schedule, filter_insertT p _ _ (hp _ _)]

/-- The removal closure preserves the queue. -/
@[simp] theorem runHideRemoval_queue (s : St) :
    (runHideRemoval s).queue = s.queue := by
  cases h : s.notificationEl <;> simp [runHideRemoval, h]

/-- The removal closure preserves the live-session list. -/
@[simp] theorem runHideRemoval_activeSessions (s : St) :
    (runHideRemoval s).activeSessions = s.activeSessions := by
  cases h : s.notificationEl <;> simp [runHideRemoval, h]

/-- The removal closure preserves the heartbeat request counter. -/
@[simp] theorem runHideRemoval_pingCount (s : St) :
    (runHideRemoval s).pingCount = s.pingCount := by
  cases h : s.notificationEl <;> simp [runHideRemoval, h]

/-- The removal closure preserves the poll request counter. -/
@[simp] theorem runHideRemoval_pollCount (s : St) :
    (runHideRemoval s).pollCount = s.pollCount := by
  cases h : s.notificationEl <;> simp [runHideRemoval, h]

/-- The removal closure preserves the interval handle. -/
@[simp] theorem runHideRemoval_pingInterval (s : St) :
    (runHideRemoval s).pingInterval = s.pingInterval := by
  cases h : s.notificationEl <;> simp [runHideRemoval, h]

/-- The removal closure preserves the visibility flag. -/
@[simp] theorem runHideRemoval_hidden (s : St) :
    (runHideRemoval s).hidden = s.hidden := by
  cases h : s.notificationEl <;> simp [runHideRemoval, h]

/-- A poll attempt never touches the heartbeat machinery: the interval
handle, the visibility flag, the heartbeat request counter and the scheduled
heartbeat ticks are all preserved, in every branch. -/
theorem runPollAttempt_frame (s : St) (sid : Nat) :
    (runPollAttempt s sid).pingInterval = s.pingInterval ∧
    (runPollAttempt s sid).hidden = s.hidden ∧
    (runPollAttempt s sid).pingCount = s.pingCount ∧
    (runPollAttempt s sid).queue.filter isHb = s.queue.filter isHb := by
  cases hr : nextResponse s with
  | fail => simp [runPollAttempt, hr, endSession]
  | ok st =>
      by_cases hrn : st = "running"
      · simp [runPollAttempt, hr, hrn, endSession, schedule, filter_insertT, isHb]
      · by_cases hst : st = "starting"
        · simp [runPollAttempt, hr, hrn, hst, schedule, filter_insertT, isHb]
        · simp [runPollAttempt, hr, hrn, hst, endSession,
                hideNot_queue_filter, isHb]

/-- Starting a poll session touches only the session list, the id counter
and the queue (where it schedules a poll attempt, never a heartbeat tick). -/
theorem pollUntilRunning_frame (s : St) :
    (pollUntilRunning s).pingInterval = s.pingInterval ∧
    (pollUntilRunning s).hidden = s.hidden ∧
    (pollUntilRunning s).pingCount = s.pingCount ∧
    (pollUntilRunning s).notificationEl = s.notificationEl ∧
    (pollUntilRunning s).dom = s.dom ∧
    (pollUntilRunning s).queue.filter isHb = s.queue.filter isHb := by
  simp [pollUntilRunning, schedule, filter_insertT, isHb]

/-- A ping never changes the interval handle, the visibility flag, the
clock, or the scheduled heartbeat ticks. -/
theorem ping_frame (s : St) :
    (ping s).pingInterval = s.pingInterval ∧
    (ping s).hidden = s.hidden ∧
    (ping s).now = s.now ∧
    (ping s).queue.filter isHb = s.queue.filter isHb := by
  cases hh : s.hidden with
  | true => simp [ping, hh]
  | false =>
      cases hr : nextResponse s with
      | fail => simp [ping, hh, hr]
      | ok st =>
          by_cases hst : st = "starting"
          · simp [ping, hh, hr, hst, pollUntilRunning, schedule, filter_insertT, isHb]
          · by_cases hrn : st = "running"
            · simp [ping, hh, hr, hst, hrn, hideNot_queue_filter, isHb]
            · simp [ping, hh, hr, hst, hrn]

/-- A ping issued while the tab is visible makes exactly one heartbeat
request, whatever the response. -/
theorem ping_pingCount (s : St) (hh : s.hidden = false) :
    (ping s).pingCount = s.pingCount + 1 := by
  cases hr : nextResponse s with
  | fail => simp [ping, hh, hr]
  | ok st =>
      by_cases hst : st = "starting"
      · simp [ping, hh, hr, hst, pollUntilRunning, schedule]
      · by_cases hrn : st = "running"
        · simp [ping, hh, hr, hst, hrn]
        · simp [ping, hh, hr, hst, hrn]

/-- Show always leaves the handle on a fresh element carrying the message. -/
theorem showNotification_notificationEl (s : St) (m : String) (ty : Style) :
    (showNotification s m ty).notificationEl = some ⟨s.nextId, m, ty, false⟩ := by
  cases h : s.notificationEl <;> simp [showNotification, h]

/-- Show leaves the scheduled-callback queue untouched. -/
theorem showNotification_queue (s : St) (m : String) (ty : Style) :
    (showNotification s m ty).queue = s.queue := by
  cases h : s.notificationEl <;> simp [showNotification, h]

/-- Show leaves the live-session list untouched. -/
theorem showNotification_activeSessions (s : St) (m : String) (ty : Style) :
    (showNotification s m ty).activeSessions = s.activeSessions := by
  cases h : s.notificationEl <;> simp [showNotification, h]

/-- Show leaves the session-id counter untouched. -/
theorem showNotification_nextSid (s : St) (m : String) (ty : Style) :
    (showNotification s m ty).nextSid = s.nextSid := by
  cases h : s.notificationEl <;> simp [showNotification, h]

/-- Under the overlay invariant, show leaves exactly the new element in the
document. -/
theorem showNotification_dom (s : St) (m : String) (ty : Style) (hinv : domInv s) :
    (showNotification s m ty).dom = [⟨s.nextId, m, ty, false⟩] := by
  cases h : s.notificationEl <;>
    simp [domInv, h, Option.toList] at hinv <;>
    simp [showNotification, h, hinv]

/-- Show preserves the overlay invariant. -/
theorem domInv_showNotification (s : St) (m : String) (ty : Style) (hinv : domInv s) :
    domInv (showNotification s m ty) := by
  simp [domInv, showNotification_dom s m ty hinv, showNotification_notificationEl]

/-- Firing the earliest scheduled callback dispatches it with the clock moved
to its fire time and the callback removed from the queue. -/
theorem step_cons (s : St) (x : Timed) (rest : List Timed) (h : s.queue = x :: rest) :
    step s = runTask { s with queue := rest, now := x.time } x.task := by
  simp [step, h]

/-- A state with the same document and handle as another inherits the overlay
invariant. -/
theorem domInv_fields (s s' : St) (hd : s'.dom = s.dom)
    (hn : s'.notificationEl = s.notificationEl) (hinv : domInv s) : domInv s' := by
  unfold domInv
  rw [hd, hn]
  exact hinv

/-- Hide preserves the overlay invariant (it fades the unique element in
place). -/
theorem domInv_hideNotification (s : St) (hinv : domInv s) :
    domInv (hideNotification s) := by
  cases h : s.notificationEl with
  | none => simpa [hideNotification, h] using hinv
  | some el =>
      simp [domInv, h, Option.toList] at hinv
      simp [domInv, hideNotification, h, schedule, hinv]

/-- The removal closure preserves the overlay invariant (it empties both the
document and the handle). -/
theorem domInv_runHideRemoval (s : St) (hinv : domInv s) :
    domInv (runHideRemoval s) := by
  cases h : s.notificationEl with
  | none => simpa [runHideRemoval, h] using hinv
  | some el =>
      simp [domInv, h, Option.toList] at hinv
      simp [domInv, runHideRemoval, h, hinv]

/-- Starting a poll session does not touch the overlay. -/
theorem domInv_pollUntilRunning (s : St) (hinv : domInv s) :
    domInv (pollUntilRunning s) :=
  domInv_fields s _ rfl rfl hinv

/-- A `ping` preserves the overlay invariant in every branch. -/
theorem domInv_ping (s : St) (hinv : domInv s) : domInv (ping s) := by
  cases hh : s.hidden with
  | true => simpa [ping, hh] using hinv
  | false =>
      have hinv1 : domInv { s with pingCount := s.pingCount + 1,
                                   responses := s.responses.tail } := hinv
      cases hr : nextResponse s with
      | fail => simpa [ping, hh, hr] using hinv1
      | ok st =>
          by_cases hst : st = "starting"
          · simpa [ping, hh, hr, hst] using
              domInv_pollUntilRunning _ (domInv_showNotification _ _ _ hinv1)
          · by_cases hrn : st = "running"
            · simpa [ping, hh, hr, hst, hrn] using domInv_hideNotification _ hinv1
            · simpa [ping, hh, hr, hst, hrn] using hinv1

/-- A poll attempt preserves the overlay invariant in every branch. -/
theorem domInv_runPollAttempt (s : St) (sid : Nat) (hinv : domInv s) :
    domInv (runPollAttempt s sid) := by
  have hinv1 : domInv { s with pollCount := s.pollCount + 1,
                               responses := s.responses.tail } := hinv
  cases hr : nextResponse s with
  | fail => simpa [runPollAttempt, hr, endSession] using hinv1
  | ok st =>
      by_cases hrn : st = "running"
      · simpa [runPollAttempt, hr, hrn, endSession, schedule] using
          domInv_showNotification _ _ _ hinv1
      · by_cases hst : st = "starting"
        · simpa [runPollAttempt, hr, hrn, hst, schedule] using hinv1
        · simpa [runPollAttempt, hr, hrn, hst, endSession] using
            domInv_hideNotification _ hinv1

/-- `startPinging` preserves the overlay invariant. -/
theorem domInv_startPinging (s : St) (hinv : domInv s) :
    domInv (startPinging s) := by
  unfold startPinging
  have h1 := domInv_ping s hinv
  by_cases h : (ping s).pingInterval
  · simpa [h] using h1
  · simp only [h, if_false]
    exact domInv_fields (ping s) _ rfl rfl h1

/-- `stopPinging` preserves the overlay invariant. -/
theorem domInv_stopPinging (s : St) (hinv : domInv s) :
    domInv (stopPinging s) := by
  unfold stopPinging
  by_cases h : s.pingInterval
  · simp only [h, if_true]
    exact domInv_fields s _ rfl rfl hinv
  · simpa [h] using hinv

/-- The visibility handler preserves the overlay invariant. -/
theorem domInv_visibilitychange (s : St) (b : Bool) (hinv : domInv s) :
    domInv (visibilitychange s b) := by
  cases b with
  | true =>
      simpa [visibilitychange] using
        domInv_stopPinging { s with hidden := true } hinv
  | false =>
      simpa [visibilitychange] using
        domInv_startPinging { s with hidden := false } hinv

/-- Every event-loop step preserves the overlay invariant. -/
theorem domInv_step (s : St) (hinv : domInv s) : domInv (step s) := by
  cases hq : s.queue with
  | nil => simpa [step, hq] using hinv
  | cons x rest =>
      rw [step_cons s x rest hq]
      have hinv1 : domInv { s with queue := rest, now := x.time } := hinv
      cases x.task with
      | heartbeat =>
          simp only [runTask]
          have h1 := domInv_ping _ hinv1
          by_cases h : (ping { s with queue := rest, now := x.time }).pingInterval
          · simpa [h] using h1
          · simp only [h, if_false]
            exact domInv_fields _ _ rfl rfl h1
      | pollAttempt sid => exact domInv_runPollAttempt _ sid hinv1
      | hideRemoval => exact domInv_runHideRemoval _ hinv1
      | hideLater => exact domInv_hideNotification _ hinv1

/-- Every reachable state satisfies the overlay invariant. -/
theorem reachable_domInv (s : St) (h : Reachable s) : domInv s := by
  induction h with
  | init resps => rfl
  | setup _ ih => exact domInv_startPinging _ ih
  | vis t b _ ih => exact domInv_visibilitychange _ b (domInv_fields _ _ rfl rfl ih)
  | tick _ ih => exact domInv_step _ ih

/-- A pending poll attempt whose response is `starting` fires, reschedules
itself 2 seconds later, and changes nothing else: the session stays alive. -/
theorem step_poll_starting (s : St) (sid t q : Nat) (rest : List Response)
    (hq : s.queue = [⟨t, q, Task.pollAttempt sid⟩])
    (hr : s.responses = Response.ok "starting" :: rest) :
    step s = { s with now := t,
                      queue := [⟨t + 2000, s.nextSeq, Task.pollAttempt sid⟩],
                      nextSeq := s.nextSeq + 1,
                      responses := rest,
                      pollCount := s.pollCount + 1 } := by
  rw [step_cons s _ _ hq]
  simp [runTask, runPollAttempt, nextResponse, hr, schedule, insertT]

/-- A pending poll attempt whose response is anything other than `starting`
(a transport failure, `running`, or any other state) fires and terminates the
session: the session is removed, no further attempt exists, and the
heartbeat machinery is untouched. -/
theorem step_poll_terminal (s : St) (sid t q : Nat) (r : Response)
    (rest : List Response)
    (hq : s.queue = [⟨t, q, Task.pollAttempt sid⟩])
    (hr : s.responses = r :: rest)
    (hterm : r ≠ Response.ok "starting") :
    (step s).activeSessions = s.activeSessions.filter (fun x => decide (x ≠ sid)) ∧
    (step s).pollCount = s.pollCount + 1 ∧
    (step s).pingCount = s.pingCount ∧
    (step s).queue.filter isPollTask = [] ∧
    (step s).pingInterval = s.pingInterval ∧
    (step s).hidden = s.hidden := by
  rw [step_cons s _ _ hq]
  cases r with
  | fail => simp [runTask, runPollAttempt, nextResponse, hr, endSession]
  | ok st =>
      by_cases hrn : st = "running"
      · simp [runTask, runPollAttempt, nextResponse, hr, hrn, endSession, schedule,
              insertT, isPollTask]
      · have hst : st ≠ "starting" := fun h => hterm (by rw [h])
        simp [runTask, runPollAttempt, nextResponse, hr, hrn, hst, endSession,
              hideNot_queue_filter, isPollTask]

/-- Running a poll session to its end: with `n` consecutive `starting`
responses followed by a non-`starting` outcome, the session makes exactly
`n + 1` attempts, stays alive through the first `n` of them, then
terminates — removing itself, scheduling no further attempt, issuing no
heartbeat request, and leaving the interval handle and visibility flag
alone. -/
theorem run_poll_session (n : Nat) :
    ∀ (s : St) (sid t q : Nat) (r : Response) (rest : List Response),
      r ≠ Response.ok "starting" →
      s.queue = [⟨t, q, Task.pollAttempt sid⟩] →
      s.responses = List.replicate n (Response.ok "starting") ++ r :: rest →
      s.activeSessions = [sid] →
      ((run (n + 1) s).activeSessions = [] ∧
       (run (n + 1) s).pollCount = s.pollCount + (n + 1) ∧
       (run (n + 1) s).pingCount = s.pingCount ∧
       (run (n + 1) s).queue.filter isPollTask = [] ∧
       (run (n + 1) s).pingInterval = s.pingInterval ∧
       (run (n + 1) s).hidden = s.hidden) ∧
      ∀ k, k ≤ n → (run k s).activeSessions = [sid] := by
  induction n with
  | zero =>
      intro s sid t q r rest hterm hq hresp hsess
      have h := step_poll_terminal s sid t q r rest hq (by simpa using hresp) hterm
      constructor
      · show ((run 0 (step s)).activeSessions = [] ∧ _ ∧ _ ∧ _ ∧ _ ∧ _)
        simp only [run]
        exact ⟨by simp [h.1, hsess], h.2.1, h.2.2.1, h.2.2.2.1, h.2.2.2.2.1,
               h.2.2.2.2.2⟩
      · intro k hk
        have hk0 : k = 0 := Nat.le_zero.mp hk
        subst hk0
        simpa [run] using hsess
  | succ n ih =>
      intro s sid t q r rest hterm hq hresp hsess
      have hresp' : s.responses
          = Response.ok "starting"
            :: (List.replicate n (Response.ok "starting") ++ r :: rest) := by
        simpa [List.replicate_succ] using hresp
      have hstep := step_poll_starting s sid t q _ hq hresp'
      have h' := ih (step s) sid (t + 2000) s.nextSeq r rest hterm
        (by rw [hstep]) (by rw [hstep]) (by rw [hstep]; exact hsess)
      have hrw : ∀ m : Nat, run (m + 1) s = run m (step s) := fun m => rfl
      constructor
      · refine ⟨?_, ?_, ?_, ?_, ?_, ?_⟩
        · rw [hrw (n + 1)]; exact h'.1.1
        · rw [hrw (n + 1), h'.1.2.1, hstep]
          show s.pollCount + 1 + (n + 1) = s.pollCount + (n + 1 + 1)
          omega
        · rw [hrw (n + 1), h'.1.2.2.1, hstep]
        · rw [hrw (n + 1)]; exact h'.1.2.2.2.1
        · rw [hrw (n + 1), h'.1.2.2.2.2.1, hstep]
        · rw [hrw (n + 1), h'.1.2.2.2.2.2, hstep]
      · intro k hk
        cases k with
        | zero => simpa [run] using hsess
        | succ k' =>
            rw [hrw k']
            exact h'.2 k' (Nat.succ_le_succ_iff.mp hk)

/- ### C1 — re-entrancy of the Recovery Poller -/

/-- C1 (counterexample). A heartbeat `starting` observation made while a poll
session is already active DOES start a second concurrent session: after the
setup heartbeat starts session 0 and its first attempt sees `starting`, a
hide/show visibility toggle at t = 1000 (before the next attempt at t = 2000)
re-activates the heartbeat, whose immediate ping sees `starting` and starts
session 1 — two sessions are then active at once. -/
theorem c1_counterexample :
    (step (setup (initSt c1resps))).activeSessions = [0] ∧
    (visibilitychange (atTime (step (setup (initSt c1resps))) 1000) true).activeSessions
      = [0] ∧
    (visibilitychange
        (atTime (visibilitychange (atTime (step (setup (initSt c1resps))) 1000) true) 1000)
        false).activeSessions = [0, 1] := by decide

/-- C1 (amended). The code has no re-entrancy guard: every heartbeat
`starting` observation unconditionally starts one fresh poll session,
regardless of how many sessions are already active. -/
theorem c1_amended (s : St) (h1 : s.hidden = false)
    (h2 : s.responses.head? = some (Response.ok "starting")) :
    (ping s).activeSessions = s.activeSessions ++ [s.nextSid] := by
  simp [ping, h1, nextResponse, h2, pollUntilRunning, schedule,
        showNotification_activeSessions, showNotification_nextSid]

/-- C1 (witness). The amended theorem applied to a state with session 0
already active: the `starting` heartbeat adds session 1 next to it. -/
theorem c1_amended_witness :
    (ping { initSt c1resps with activeSessions := [0], nextSid := 1 }).activeSessions
      = ({ initSt c1resps with activeSessions := [0], nextSid := 1 } : St).activeSessions
        ++ [({ initSt c1resps with activeSessions := [0], nextSid := 1 } : St).nextSid] :=
  c1_amended _ rfl rfl

/- ### C2 — transport failure during a poll session -/

/-- C2 (counterexample). When the first poll attempt of a session throws a
transport error, the session ends (no session left, no further attempt
scheduled) but the `starting` overlay is NOT dismissed: the element is still
referenced, unfaded. The catch branch only returns `true`. -/
theorem c2_counterexample :
    (step (setup (initSt c2resps))).activeSessions = [] ∧
    (step (setup (initSt c2resps))).queue.filter isPollTask = [] ∧
    (step (setup (initSt c2resps))).notificationEl
      = some ⟨0, "ComfyUI is starting up... Please wait.", Style.info, false⟩ := by decide

/-- C2 (amended). A poll attempt that fails with a transport error ends the
session and schedules nothing further, but leaves the overlay exactly as it
was: handle, document, and queue are untouched. -/
theorem c2_amended (s : St) (sid : Nat) (h : s.responses.head? = some Response.fail) :
    (runPollAttempt s sid).notificationEl = s.notificationEl ∧
    (runPollAttempt s sid).dom = s.dom ∧
    (runPollAttempt s sid).queue = s.queue ∧
    (runPollAttempt s sid).activeSessions
      = s.activeSessions.filter (fun x => decide (x ≠ sid)) ∧
    (runPollAttempt s sid).pollCount = s.pollCount + 1 := by
  simp [runPollAttempt, nextResponse, h, endSession]

/-- C2 (witness). The amended theorem at a concrete one-session state whose
next response is a transport failure. -/
theorem c2_amended_witness :
    (runPollAttempt { initSt [Response.fail] with activeSessions := [0] } 0).notificationEl
      = ({ initSt [Response.fail] with activeSessions := [0] } : St).notificationEl ∧
    (runPollAttempt { initSt [Response.fail] with activeSessions := [0] } 0).dom
      = ({ initSt [Response.fail] with activeSessions := [0] } : St).dom ∧
    (runPollAttempt { initSt [Response.fail] with activeSessions := [0] } 0).queue
      = ({ initSt [Response.fail] with activeSessions := [0] } : St).queue ∧
    (runPollAttempt { initSt [Response.fail] with activeSessions := [0] } 0).activeSessions
      = ({ initSt [Response.fail] with activeSessions := [0] } : St).activeSessions.filter
          (fun x => decide (x ≠ 0)) ∧
    (runPollAttempt { initSt [Response.fail] with activeSessions := [0] } 0).pollCount
      = ({ initSt [Response.fail] with activeSessions := [0] } : St).pollCount + 1 :=
  c2_amended _ 0 rfl

/- ### C3 — show during a pending fade-out -/

/-- C3 (counterexample). Show "A", hide it (removal pending at 300 ms), show
"B" before the delay elapses: "B" is displayed — but when the pending removal
fires it removes "B", because the closure reads the current module-level
handle. The new notification does NOT remain visible. -/
theorem c3_counterexample :
    (showNotification c3state "B" Style.info).notificationEl.map Elem.message
      = some "B" ∧
    (step (showNotification c3state "B" Style.info)).notificationEl = none ∧
    (step (showNotification c3state "B" Style.info)).dom = [] := by decide

/-- C3 (amended). Calling show while a hide removal is pending replaces the
element, but does not cancel the pending removal: when that removal fires it
removes the newly shown notification and clears the handle. -/
theorem c3_amended (s : St) (m : String) (ty : Style) (t q : Nat) (rest : List Timed)
    (hq : s.queue = ⟨t, q, Task.hideRemoval⟩ :: rest) (hinv : domInv s) :
    (showNotification s m ty).notificationEl.map Elem.message = some m ∧
    (step (showNotification s m ty)).notificationEl = none ∧
    (step (showNotification s m ty)).dom = [] := by
  have hq' : (showNotification s m ty).queue = ⟨t, q, Task.hideRemoval⟩ :: rest := by
    rw [showNotification_queue]; exact hq
  refine ⟨by simp [showNotification_notificationEl], ?_, ?_⟩ <;>
  · rw [step_cons _ _ _ hq']
    simp [runTask, runHideRemoval, showNotification_notificationEl,
          showNotification_dom s m ty hinv]

/-- C3 (witness). The amended theorem at the concrete pending-fade state. -/
theorem c3_amended_witness :
    (showNotification c3state "B" Style.info).notificationEl.map Elem.message
      = some "B" ∧
    (step (showNotification c3state "B" Style.info)).notificationEl = none ∧
    (step (showNotification c3state "B" Style.info)).dom = [] :=
  c3_amended c3state "B" Style.info 300 0 [] (by decide) (by unfold domInv; decide)

/- ### C4 — spec Scenario B -/

/-- C4. Scenario B: heartbeat `starting`, first poll `starting`, second poll
`running`. The overlay shows the info "starting up" notification, then (at
t = 2000, the second poll attempt) the success "ready" notification; exactly
two poll attempts are made after the initial heartbeat and the session ends;
`hideNotification` is scheduled 2 seconds later (t = 4000) and after it and
its fade removal fire, the overlay is gone. -/
theorem c4_scenarioB :
    (setup (initSt c4resps)).notificationEl
      = some ⟨0, "ComfyUI is starting up... Please wait.", Style.info, false⟩ ∧
    (run 2 (setup (initSt c4resps))).notificationEl
      = some ⟨1, "ComfyUI is ready!", Style.success, false⟩ ∧
    (run 2 (setup (initSt c4resps))).now = 2000 ∧
    (run 2 (setup (initSt c4resps))).pollCount = 2 ∧
    (run 2 (setup (initSt c4resps))).activeSessions = [] ∧
    (run 2 (setup (initSt c4resps))).queue
      = [⟨4000, 3, Task.hideLater⟩, ⟨60000, 1, Task.heartbeat⟩] ∧
    (run 4 (setup (initSt c4resps))).notificationEl = none ∧
    (run 4 (setup (initSt c4resps))).dom = [] ∧
    (run 4 (setup (initSt c4resps))).pollCount = 2 := by decide

/- ### C5 — single-notification invariant of the Status Overlay -/

/-- C5. In every reachable state at most one notification element is in the
document; and from any reachable state, two consecutive shows leave exactly
the second message visible (show unconditionally removes the previous
element before creating the new one). -/
theorem c5_overlay_unique (s : St) (h : Reachable s) :
    s.dom.length ≤ 1 ∧
    ∀ (m1 : String) (ty1 : Style) (m2 : String) (ty2 : Style),
      (showNotification (showNotification s m1 ty1) m2 ty2).dom.map Elem.message
        = [m2] := by
  have hinv := reachable_domInv s h
  constructor
  · rw [hinv]
    cases s.notificationEl <;> simp [Option.toList]
  · intro m1 ty1 m2 ty2
    rw [showNotification_dom _ m2 ty2 (domInv_showNotification _ m1 ty1 hinv)]
    simp

/-- C5 (witness). The invariant instantiated at the fresh state. -/
theorem c5_overlay_unique_witness :
    (initSt []).dom.length ≤ 1 ∧
    ∀ (m1 : String) (ty1 : Style) (m2 : String) (ty2 : Style),
      (showNotification (showNotification (initSt []) m1 ty1) m2 ty2).dom.map
        Elem.message = [m2] :=
  c5_overlay_unique (initSt []) (Reachable.init [])

/- ### C6 — termination of a Recovery Poller session -/

/-- C6. A session fed `n` consecutive `starting` responses followed by any
non-`starting` outcome (transport failure, `running`, or another state)
terminates after exactly `n + 1` poll attempts — the session is removed and
no further attempt is scheduled — and it never terminates earlier, while the
responses are still `starting`. -/
theorem c6_termination (n : Nat) (s : St) (sid t q : Nat) (r : Response)
    (rest : List Response) (hterm : r ≠ Response.ok "starting")
    (hq : s.queue = [⟨t, q, Task.pollAttempt sid⟩])
    (hresp : s.responses = List.replicate n (Response.ok "starting") ++ r :: rest)
    (hsess : s.activeSessions = [sid]) :
    ((run (n + 1) s).activeSessions = [] ∧
     (run (n + 1) s).pollCount = s.pollCount + (n + 1) ∧
     (run (n + 1) s).queue.filter isPollTask = []) ∧
    ∀ k, k ≤ n → (run k s).activeSessions = [sid] := by
  have h := run_poll_session n s sid t q r rest hterm hq hresp hsess
  exact ⟨⟨h.1.1, h.1.2.1, h.1.2.2.2.1⟩, h.2⟩

/-- C6 (witness). A session with one `starting` response then `running`
makes exactly two attempts and is still alive after the first. -/
theorem c6_termination_witness :
    ((run 2 c6state).activeSessions = [] ∧
     (run 2 c6state).pollCount = c6state.pollCount + 2 ∧
     (run 2 c6state).queue.filter isPollTask = []) ∧
    ∀ k, k ≤ 1 → (run k c6state).activeSessions = [0] :=
  c6_termination 1 c6state 0 0 0 (Response.ok "running") []
    (by decide) rfl (by decide) rfl

/- ### C9 — tab hidden while a poll session is active -/

/-- C9. Hiding the tab mid-session cancels only the heartbeat: the session
list is untouched, the pending poll attempt survives while the pending
interval tick is removed, and no heartbeat request is made; the session then
keeps polling while hidden and terminates on its own schedule (`n + 1`
attempts for `n` remaining `starting` responses), with the heartbeat request
count never advancing until visibility returns. -/
theorem c9_hidden_midsession (s : St) (n : Nat) (sid t q th qh : Nat)
    (r : Response) (rest : List Response)
    (hterm : r ≠ Response.ok "starting")
    (hpi : s.pingInterval = true)
    (hq : s.queue = [⟨t, q, Task.pollAttempt sid⟩, ⟨th, qh, Task.heartbeat⟩])
    (hresp : s.responses = List.replicate n (Response.ok "starting") ++ r :: rest)
    (hsess : s.activeSessions = [sid]) :
    (visibilitychange s true).activeSessions = [sid] ∧
    (visibilitychange s true).queue = [⟨t, q, Task.pollAttempt sid⟩] ∧
    (visibilitychange s true).pingCount = s.pingCount ∧
    (run (n + 1) (visibilitychange s true)).activeSessions = [] ∧
    (run (n + 1) (visibilitychange s true)).pollCount = s.pollCount + (n + 1) ∧
    (run (n + 1) (visibilitychange s true)).pingCount = s.pingCount ∧
    ∀ k, k ≤ n → (run k (visibilitychange s true)).activeSessions = [sid] := by
  have hv : visibilitychange s true
      = { s with hidden := true, pingInterval := false,
                 queue := [⟨t, q, Task.pollAttempt sid⟩] } := by
    simp [visibilitychange, stopPinging, hpi, hq, List.filter_cons]
  have h := run_poll_session n (visibilitychange s true) sid t q r rest hterm
    (by rw [hv]) (by rw [hv]; exact hresp) (by rw [hv]; exact hsess)
  refine ⟨by rw [hv]; exact hsess, by rw [hv], by rw [hv], h.1.1, ?_, ?_, h.2⟩
  · rw [h.1.2.1, hv]
  · rw [h.1.2.2.1, hv]

/-- C9 (witness). The theorem at a concrete mid-session state: poll attempt
pending at t = 2000, interval tick pending at t = 60000, one `starting`
response left then `running`. -/
theorem c9_hidden_midsession_witness :
    (visibilitychange c9state true).activeSessions = [0] ∧
    (visibilitychange c9state true).queue = [⟨2000, 2, Task.pollAttempt 0⟩] ∧
    (visibilitychange c9state true).pingCount = c9state.pingCount ∧
    (run 2 (visibilitychange c9state true)).activeSessions = [] ∧
    (run 2 (visibilitychange c9state true)).pollCount = c9state.pollCount + 2 ∧
    (run 2 (visibilitychange c9state true)).pingCount = c9state.pingCount ∧
    ∀ k, k ≤ 1 → (run k (visibilitychange c9state true)).activeSessions = [0] :=
  c9_hidden_midsession c9state 1 0 2000 2 60000 1 (Response.ok "running") []
    (by decide) rfl rfl (by decide) rfl

/-- Clearing the interval removes every pending interval tick: after
`stopPinging`'s queue filter, no heartbeat callback remains. -/
theorem filter_hb_of_filter_ne (l : List Timed) :
    (l.filter (fun x => decide (x.task ≠ Task.heartbeat))).filter isHb = [] := by
  induction l with
  | nil => simp
  | cons x xs ih =>
      by_cases h : x.task = Task.heartbeat
      · rw [List.filter_cons, if_neg (by simp [h])]
        exact ih
      · rw [List.filter_cons, if_pos (by simp [h]), List.filter_cons,
            if_neg (by simp [isHb, h])]
        exact ih

/-- A filtered view that starts empty stays empty on the tail. -/
theorem filter_tail_of_filter_nil (p : Timed → Bool) (x : Timed) (l : List Timed)
    (h : (x :: l).filter p = []) : l.filter p = [] := by
  rw [List.filter_cons] at h
  by_cases hx : p x
  · simp [hx] at h
  · simpa [hx] using h

/- ### C7 — heartbeat cadence under visibility toggles -/

/-- C7. (1) A Hidden-to-Visible transition immediately issues one heartbeat
request, re-creates the interval, and leaves exactly one pending interval
tick, 60 seconds ahead. (2) While Visible, a fired interval tick issues one
heartbeat request and leaves the next tick 60 seconds after it. (3) A
Visible-to-Hidden transition issues no request and leaves zero pending
interval ticks. (4) While Hidden with no interval, event-loop steps never
issue a heartbeat request nor schedule an interval tick. -/
theorem c7_heartbeat_visibility (s : St) :
    (s.hidden = true → s.pingInterval = false → s.queue.filter isHb = [] →
       (visibilitychange s false).pingCount = s.pingCount + 1 ∧
       (visibilitychange s false).pingInterval = true ∧
       ∃ qq, (visibilitychange s false).queue.filter isHb
           = [⟨s.now + 60000, qq, Task.heartbeat⟩]) ∧
    (∀ (t q : Nat) (rest : List Timed),
       s.queue = ⟨t, q, Task.heartbeat⟩ :: rest → s.pingInterval = true →
       s.hidden = false → rest.filter isHb = [] →
       (step s).pingCount = s.pingCount + 1 ∧
       ∃ qq, (step s).queue.filter isHb = [⟨t + 60000, qq, Task.heartbeat⟩]) ∧
    (s.pingInterval = true →
       (visibilitychange s true).queue.filter isHb = [] ∧
       (visibilitychange s true).pingCount = s.pingCount) ∧
    (s.hidden = true → s.pingInterval = false → s.queue.filter isHb = [] →
       (step s).pingCount = s.pingCount ∧ (step s).hidden = true ∧
       (step s).pingInterval = false ∧ (step s).queue.filter isHb = []) := by
  refine ⟨?_, ?_, ?_, ?_⟩
  · intro _ hpi hqf
    have hf := ping_frame { s with hidden := false }
    have hc := ping_pingCount { s with hidden := false } rfl
    have hpi' : (ping { s with hidden := false }).pingInterval = false := by
      rw [hf.1]; exact hpi
    have hq0 : (ping { s with hidden := false }).queue.filter isHb = [] := by
      rw [hf.2.2.2]; exact hqf
    refine ⟨?_, ?_, ⟨(ping { s with hidden := false }).nextSeq, ?_⟩⟩
    · simp [visibilitychange, startPinging, hpi', schedule, hc]
    · simp [visibilitychange, startPinging, hpi', schedule]
    · simp only [visibilitychange, Bool.false_eq_true, if_false, startPinging,
                 hpi', schedule]
      rw [show (ping { s with hidden := false }).now = s.now from hf.2.2.1]
      exact filter_insertT_pos isHb _ _ (by simp [isHb]) hq0
  · intro t q rest hq hpi hh hrf
    have hstep := step_cons s _ rest hq
    have hf := ping_frame { s with queue := rest, now := t }
    have hc := ping_pingCount { s with queue := rest, now := t }
      (by simpa using hh)
    have hpi' : (ping { s with queue := rest, now := t }).pingInterval = true := by
      rw [hf.1]; exact hpi
    have hq0 : (ping { s with queue := rest, now := t }).queue.filter isHb = [] := by
      rw [hf.2.2.2]; exact hrf
    refine ⟨?_, ⟨(ping { s with queue := rest, now := t }).nextSeq, ?_⟩⟩
    · rw [hstep]
      simp [runTask, hpi', schedule, hc]
    · rw [hstep]
      simp only [runTask, hpi', if_true, schedule]
      rw [show (ping { s with queue := rest, now := t }).now = t from hf.2.2.1]
      exact filter_insertT_pos isHb _ _ (by simp [isHb]) hq0
  · intro hpi
    have hstop : visibilitychange s true
        = { s with hidden := true, pingInterval := false,
                   queue := s.queue.filter
                     (fun x => decide (x.task ≠ Task.heartbeat)) } := by
      simp [visibilitychange, stopPinging, hpi]
    constructor
    · rw [hstop]
      exact filter_hb_of_filter_ne s.queue
    · rw [hstop]
  · intro hh hpi hqf
    cases hq : s.queue with
    | nil => simp [step, hq, hh, hpi, hqf]
    | cons x rest =>
        obtain ⟨xt, xq, xtask⟩ := x
        have hrf : rest.filter isHb = [] := by
          rw [hq] at hqf
          exact filter_tail_of_filter_nil isHb _ rest hqf
        rw [step_cons s _ rest hq]
        cases xtask with
        | heartbeat =>
            exfalso
            rw [hq, List.filter_cons] at hqf
            simp [isHb] at hqf
        | pollAttempt sid =>
            have hf := runPollAttempt_frame { s with queue := rest, now := xt } sid
            exact ⟨hf.2.2.1, hf.2.1.trans hh, hf.1.trans hpi, hf.2.2.2.trans hrf⟩
        | hideRemoval => simp [runTask, hh, hpi, hrf]
        | hideLater =>
            refine ⟨by simp [runTask], by simp [runTask, hh], by simp [runTask, hpi], ?_⟩
            simp only [runTask]
            rw [hideNot_queue_filter _ isHb (by intro a b; simp [isHb])]
            exact hrf

/-- C7 (witness). The four parts instantiated: parts 1 and 4 at a hidden
idle client, parts 2 and 3 at a visible client with a pending tick. -/
theorem c7_heartbeat_visibility_witness :
    ((visibilitychange hiddenIdle false).pingCount = hiddenIdle.pingCount + 1 ∧
     (visibilitychange hiddenIdle false).pingInterval = true ∧
     ∃ qq, (visibilitychange hiddenIdle false).queue.filter isHb
         = [⟨hiddenIdle.now + 60000, qq, Task.heartbeat⟩]) ∧
    ((step visibleIdle).pingCount = visibleIdle.pingCount + 1 ∧
     ∃ qq, (step visibleIdle).queue.filter isHb
         = [⟨60000 + 60000, qq, Task.heartbeat⟩]) ∧
    ((visibilitychange visibleIdle true).queue.filter isHb = [] ∧
     (visibilitychange visibleIdle true).pingCount = visibleIdle.pingCount) ∧
    ((step hiddenIdle).pingCount = hiddenIdle.pingCount ∧
     (step hiddenIdle).hidden = true ∧
     (step hiddenIdle).pingInterval = false ∧
     (step hiddenIdle).queue.filter isHb = []) :=
  ⟨(c7_heartbeat_visibility hiddenIdle).1 rfl rfl rfl,
   (c7_heartbeat_visibility visibleIdle).2.1 60000 0 [] rfl rfl rfl rfl,
   (c7_heartbeat_visibility visibleIdle).2.2.1 rfl,
   (c7_heartbeat_visibility hiddenIdle).2.2.2 rfl rfl rfl⟩

/- ### C8 — transport error on a heartbeat tick is absorbed -/

/-- C8. A fired interval tick whose request fails with a transport error is
absorbed: the outcome is interpreted as the Unknown backend state, the
overlay (handle and document) and session list are unchanged, no error
surfaces, the interval handle stays live, the request is still counted, and
the next tick is left scheduled 60 seconds after this one. -/
theorem c8_transport_error (s : St) (t q : Nat) (rest : List Timed)
    (rs : List Response)
    (hq : s.queue = ⟨t, q, Task.heartbeat⟩ :: rest)
    (hh : s.hidden = false) (hpi : s.pingInterval = true)
    (hr : s.responses = Response.fail :: rs) :
    interpret Response.fail = BackendState.unknown ∧
    (step s).notificationEl = s.notificationEl ∧
    (step s).dom = s.dom ∧
    (step s).activeSessions = s.activeSessions ∧
    (step s).pingInterval = true ∧
    (step s).pingCount = s.pingCount + 1 ∧
    (step s).queue = insertT ⟨t + 60000, s.nextSeq, Task.heartbeat⟩ rest := by
  rw [step_cons s _ rest hq]
  simp [runTask, ping, hh, nextResponse, hr, hpi, schedule, interpret]

/-- C8 (witness). The theorem at a visible idle client whose tick fires
against an unreachable backend. -/
theorem c8_transport_error_witness :
    interpret Response.fail = BackendState.unknown ∧
    (step visibleIdle).notificationEl = visibleIdle.notificationEl ∧
    (step visibleIdle).dom = visibleIdle.dom ∧
    (step visibleIdle).activeSessions = visibleIdle.activeSessions ∧
    (step visibleIdle).pingInterval = true ∧
    (step visibleIdle).pingCount = visibleIdle.pingCount + 1 ∧
    (step visibleIdle).queue
      = insertT ⟨60000 + 60000, visibleIdle.nextSeq, Task.heartbeat⟩ [] :=
  c8_transport_error visibleIdle 60000 0 [] [] rfl rfl rfl rfl

/- ### C10 — poll sessions never touch the heartbeat interval -/

/-- C10. Frame property of the Recovery Poller: both starting a session and
running any branch of a poll attempt leave the heartbeat interval handle
unchanged, add or remove no scheduled interval tick, issue no heartbeat
request, and do not touch the visibility flag. -/
theorem c10_poll_frame (s : St) (sid : Nat) :
    ((runPollAttempt s sid).pingInterval = s.pingInterval ∧
     (runPollAttempt s sid).hidden = s.hidden ∧
     (runPollAttempt s sid).pingCount = s.pingCount ∧
     (runPollAttempt s sid).queue.filter isHb = s.queue.filter isHb) ∧
    ((pollUntilRunning s).pingInterval = s.pingInterval ∧
     (pollUntilRunning s).hidden = s.hidden ∧
     (pollUntilRunning s).pingCount = s.pingCount ∧
     (pollUntilRunning s).queue.filter isHb = s.queue.filter isHb) :=
  ⟨runPollAttempt_frame s sid,
   (pollUntilRunning_frame s).1, (pollUntilRunning_frame s).2.1,
   (pollUntilRunning_frame s).2.2.1, (pollUntilRunning_frame s).2.2.2.2.2⟩

end Keepalive
